import Mathlib

/-!
Shallow embedding of the tbsm settlement engine (Django app) in Lean 4.

Python `Decimal` values are modelled as exact rationals (`ℚ`); the only
rounding the relevant code performs is `quantize` with half-even rounding,
modelled explicitly.  The Django ORM rows are modelled as in-memory lists:
`Ownership` rows, `Rating` rows, `RatingLog` rows and `TransactionLog` rows,
plus the single `ScheduledPayment` under consideration, are gathered in a
`World` record, and each method of the source becomes a state-passing
function on `World`.
-/

/-- Source `utils/calculations.py`, `clip`: returns `maximum` when
`x > maximum`, `minimum` when `x < minimum`, else `x`. -/
def clip (x minimum maximum : ℚ) : ℚ :=
  if x > maximum then maximum
  else if x < minimum then minimum
  else x

/-- Floor of a rational, written through `Int.fdiv` so that it evaluates
inside the kernel (the denominator of a `Rat` is positive, so floor
division of the numerator by the denominator is the floor). -/
def ratFloor (q : ℚ) : ℤ := Int.fdiv q.num q.den

/-- Banker's rounding of a rational to an integer: round half to even,
the default rounding of Python `Decimal.quantize`.  An exact .5 tie goes
to the neighbour with even parity. -/
def roundHalfEven (q : ℚ) : ℤ :=
  let n := ratFloor q
  let f := q - n
  if f < 1/2 then n
  else if 1/2 < f then n + 1
  else if n % 2 = 0 then n else n + 1

/-- Model of `Decimal.quantize(Decimal("1.00"))`: round half-even keeping
two fractional digits. -/
def quantize2 (q : ℚ) : ℚ := (roundHalfEven (q * 100) : ℚ) / 100

/-- Model of `Decimal.quantize(Decimal("1.0000"))`: round half-even keeping
four fractional digits. -/
def quantize4 (q : ℚ) : ℚ := (roundHalfEven (q * 10000) : ℚ) / 10000

/-- Source `utils/calculations.py`, `percent`: two-decimal half-even
rounding of `full_amount * percent / 100`. -/
def percent (full_amount pct : ℚ) : ℚ :=
  quantize2 (full_amount * pct / 100)

-- ====================================================================
-- The persisted state

/-- One `things.Ownership` row: a (corporation, thing) balance. -/
structure OwnRow where
  corp : ℕ
  thing : ℕ
  amount : ℚ
deriving DecidableEq, Repr

/-- One `contracts.Rating` row. -/
structure RatingRow where
  corp : ℕ
  rating : ℚ
  is_newbie : Bool
deriving DecidableEq, Repr

/-- One `contracts.RatingLog` row (delta and which corporation's rating). -/
structure RatingLogRow where
  corp : ℕ
  delta : ℚ
deriving DecidableEq, Repr

/-- One `corporations.TransactionLog` row. -/
structure TxLogRow where
  giver : ℕ
  taker : ℕ
  thing : ℕ
  amount_scheduled : ℚ
  amount_actually_given : ℚ
deriving DecidableEq, Repr

/-- The mutable flags of one `contracts.ScheduledPayment` row. -/
structure SPState where
  was_processed : Bool
  paid : Bool
  missed_payment : Bool
deriving DecidableEq, Repr

/-- The database state the settlement engine reads and writes:
ownership rows, the set of corporations stamped bankrupt, rating rows,
rating-log rows, transaction-log rows, and the flags of the one
scheduled payment being settled. -/
structure World where
  rows : List OwnRow
  bankrupt : List ℕ
  ratings : List RatingRow
  ratingLogs : List RatingLogRow
  txLogs : List TxLogRow
  sp : SPState
deriving DecidableEq, Repr

/-- First `Ownership` row matching (corporation, thing), as Django's
`filter(...).first()` / `get_or_create` lookup. -/
def findOwn (rows : List OwnRow) (c t : ℕ) : Option OwnRow :=
  rows.find? (fun r => r.corp == c && r.thing == t)

/-- The amount of the first matching row, zero when absent: the balance
as observed through lookups. -/
def ownAmount (rows : List OwnRow) (c t : ℕ) : ℚ :=
  ((findOwn rows c t).map (fun r => r.amount)).getD 0

/-- Django `get_or_create(corporation, thing, defaults=amount 0)` effect on
the table: create a fresh zero row when no row matches. -/
def getOrCreate (rows : List OwnRow) (c t : ℕ) : List OwnRow :=
  if (findOwn rows c t).isSome then rows else rows ++ [⟨c, t, 0⟩]

/-- Saving a mutated ownership object: replace the amount of the first
matching row. -/
def setOwn (rows : List OwnRow) (c t : ℕ) (v : ℚ) : List OwnRow :=
  match rows with
  | [] => []
  | r :: rs =>
    if r.corp == c && r.thing == t then { r with amount := v } :: rs
    else r :: setOwn rs c t v

/-- Deleting an ownership row: drop rows matching (corporation, thing). -/
def delOwn (rows : List OwnRow) (c t : ℕ) : List OwnRow :=
  rows.filter (fun r => !(r.corp == c && r.thing == t))

/-- The balance of a corporation in a thing as the code observes it
(zero when no row is stored). -/
def balanceOf (w : World) (c t : ℕ) : ℚ := ownAmount w.rows c t

/-- Source `corporations/models.py`, `Corporation.transfer_ownership`:
get-or-create the payer row, move `min(amount, payer_balance)`, stamp the
payer bankrupt when the transferable amount falls short, credit the
receiver, and delete the payer row when the in-memory payer amount hit
exactly zero.  Returns (transferred amount, became-bankrupt flag, new
state).  The zero test for the deletion uses the payer object's stale
in-memory amount, exactly as the source does. -/
def transfer_ownership (self : ℕ) (thing : ℕ) (amount : ℚ) (toCorp : ℕ)
    (w : World) : ℚ × Bool × World :=
  let rows1 := getOrCreate w.rows self thing
  let payerAmt := ownAmount rows1 self thing
  let transferable := min amount payerAmt
  let bankrupt := transferable < amount
  let bankruptList := if bankrupt then self :: w.bankrupt else w.bankrupt
  if 0 < transferable then
    let payerAfter := payerAmt - transferable
    let rows2 := setOwn rows1 self thing payerAfter
    let rows3 := getOrCreate rows2 toCorp thing
    let recvAmt := ownAmount rows3 toCorp thing
    let rows4 := setOwn rows3 toCorp thing (recvAmt + transferable)
    let rows5 := if payerAfter = 0 then delOwn rows4 self thing else rows4
    (transferable, bankrupt, { w with rows := rows5, bankrupt := bankruptList })
  else
    (transferable, bankrupt, { w with rows := rows1, bankrupt := bankruptList })

-- ====================================================================
-- SLFPS: the formula language (`contracts/slfps.py`)

/-- A formula of the payment-specification language: a leaf token (string)
or a compound form headed by an operator name, as in the wire format. -/
inductive Formula where
  | leaf (s : String)
  | comp (head : String) (args : List Formula)

/-- The variable registry bound to a scheduled payment: the owning
contract's nominal price and the payment's execution order, plus the
entropy consumed by the `random` operator (Python draws it from the
global generator; here it is injected). -/
structure Env where
  nominal_price : ℚ
  execution_order : ℚ
  rand : ℚ
deriving DecidableEq, Repr

/-- Typed evaluation failures of the interpreter: the plain
"Unexpected token" exception for a bad leaf, the `SLFPS_Exception`
"Unknown function" for a bad operator head, the decimal division-by-zero
arithmetic error, and the TypeError an arity mismatch would raise. -/
inductive EvalErr where
  | unexpectedToken (s : String)
  | unknownFunction (s : String)
  | divisionByZero
  | arityMismatch (s : String)
deriving DecidableEq, Repr

/-- The token after the optional leading sign of the source regex
`[-+]?[0-9]+(\.[0-9]+)?`. -/
def stripSign (l : List Char) : List Char :=
  match l with
  | '-' :: rest => rest
  | '+' :: rest => rest
  | _ => l

/-- The sign factor of a decimal-literal token. -/
def signOf (l : List Char) : ℤ :=
  match l with
  | '-' :: _ => -1
  | _ => 1

/-- The integer-part digits of a decimal-literal token. -/
def intDigits (l : List Char) : List Char :=
  (stripSign l).takeWhile Char.isDigit

/-- The fraction digits of a decimal-literal token (empty when there is
no dot). -/
def fracDigits (l : List Char) : List Char :=
  match (stripSign l).dropWhile Char.isDigit with
  | '.' :: f => f
  | _ => []

/-- Full match of the source regex `[-+]?[0-9]+(\.[0-9]+)?`: optional
sign, one or more digits, optional dot followed by one or more digits. -/
def isNumberTok (s : String) : Bool :=
  let body := stripSign s.toList
  let intPart := body.takeWhile Char.isDigit
  match body.dropWhile Char.isDigit with
  | [] => !intPart.isEmpty
  | '.' :: frac => !intPart.isEmpty && !frac.isEmpty && frac.all Char.isDigit
  | _ => false

/-- Value of a digit string read in base 10. -/
def digitsToNat (l : List Char) : ℕ :=
  l.foldl (fun acc c => 10 * acc + (c.toNat - 48)) 0

/-- The exact rational denoted by a decimal-literal token (what
`Decimal(formula)` constructs for a token matched by the regex). -/
def parseDecimal (s : String) : ℚ :=
  (signOf s.toList : ℚ) *
    ((digitsToNat (intDigits s.toList) : ℚ) +
      (digitsToNat (fracDigits s.toList) : ℚ) / ((10 : ℚ) ^ (fracDigits s.toList).length))

/-- Membership in the source's `FUNCTIONS` table. -/
def knownFun (s : String) : Bool :=
  s == "+" || s == "-" || s == "*" || s == "/" || s == "%" || s == "random"

/-- Model of `Decimal.quantize(Decimal(".0001"), rounding=ROUND_DOWN)` for
the nonnegative values `random.random()` produces. -/
def quantizeDown4 (q : ℚ) : ℚ := (ratFloor (q * 10000) : ℚ) / 10000

/-- Application of an entry of the `FUNCTIONS` table to the already
evaluated arguments.  Division by zero and arity mismatches surface as
the corresponding errors instead of values. -/
def applyFun (name : String) (args : List ℚ) (e : Env) : Except EvalErr ℚ :=
  match name, args with
  | "+", [x, y] => .ok (x + y)
  | "-", [x, y] => .ok (x - y)
  | "*", [x, y] => .ok (x * y)
  | "/", [x, y] => if y = 0 then .error .divisionByZero else .ok (x / y)
  | "%", [whole, perc] => .ok (percent whole perc)
  | "random", [] => .ok (quantizeDown4 e.rand)
  | other, _ => .error (.arityMismatch other)

mutual
/-- Source `contracts/slfps.py`, `calculate`: a leaf is a decimal literal,
else a registry variable, else the fatal "Unexpected token"; a compound
form first checks its head against `FUNCTIONS` (fatal "Unknown function"
otherwise), then evaluates its arguments left to right and applies the
operator.  Errors propagate outward, never swallowed. -/
def calculate (f : Formula) (e : Env) : Except EvalErr ℚ :=
  match f with
  | .leaf s =>
    if isNumberTok s then .ok (parseDecimal s)
    else if s == "nominal_price" then .ok e.nominal_price
    else if s == "execution_order" then .ok e.execution_order
    else .error (.unexpectedToken s)
  | .comp head args =>
    if knownFun head then
      match calcArgs args e with
      | .error er => .error er
      | .ok vals => applyFun head vals e
    else .error (.unknownFunction head)
termination_by structural f

/-- Left-to-right evaluation of a compound form's argument list; the
first failing argument aborts the whole evaluation. -/
def calcArgs (l : List Formula) (e : Env) : Except EvalErr (List ℚ) :=
  match l with
  | [] => .ok []
  | a :: rest =>
    match calculate a e with
    | .error er => .error er
    | .ok v =>
      match calcArgs rest e with
      | .error er => .error er
      | .ok vs => .ok (v :: vs)
termination_by structural l
end

-- ====================================================================
-- TimelyAction (`contracts/models.py`)

/-- The `TimelyAction.Regularity` enum. -/
inductive Regularity where
  | every
  | exactly_in
  | exactly_at
  | whenCond
deriving DecidableEq, Repr

/-- A `TimelyAction` row.  Durations and timestamps are integers (e.g.
microseconds); nullable fields are options. -/
structure TimelyAction where
  regularity : Regularity
  starting_after : Option ℤ
  every : Option ℤ
  repeat_times : Option ℤ
  exactly_in : Option ℤ
  exactly_at : Option ℤ
deriving DecidableEq, Repr

/-- Source `TimelyAction.absolutize`.  EVERY: the anchor adds
`starting_after` only when that field is truthy (set and nonzero), then
one timestamp `anchor + i * every` per `i` in `range(repeat_times)`.
EXACTLY_IN: the single `start + exactly_in`.  EXACTLY_AT: the stored
timestamp.  `none` models the exception paths: the unimplemented WHEN
branch, and the TypeErrors hit when a needed field is null (for EVERY,
`every` is only read when the range is nonempty). -/
def TimelyAction.absolutize (ta : TimelyAction) (start_date : ℤ) : Option (List ℤ) :=
  match ta.regularity with
  | .every =>
    match ta.repeat_times with
    | none => none
    | some n =>
      let date := match ta.starting_after with
        | some d => if d ≠ 0 then start_date + d else start_date
        | none => start_date
      if n.toNat = 0 then some []
      else
        match ta.every with
        | none => none
        | some ev => some ((List.range n.toNat).map (fun (i : ℕ) => date + (i : ℤ) * ev))
  | .exactly_in =>
    match ta.exactly_in with
    | some d => some [start_date + d]
    | none => none
  | .exactly_at =>
    match ta.exactly_at with
    | some d => some [d]
    | none => none
  | .whenCond => none

-- ====================================================================
-- Settlement (`contracts/models.py`)

/-- The `RepaymentTemplate.Variability` choice together with the payload
the chosen branch reads: a fixed decimal amount or a formula tree. -/
inductive Variability where
  | fixed (amt : ℚ)
  | varFormula (f : Formula)

/-- The read-only context of one scheduled payment: the owning contract's
emitter, receiver and nominal price, the repayment template's variability
and traded thing, the payment's execution order, and the entropy a
`random` operator would consume. -/
structure Ctx where
  emitter : ℕ
  receiver : Option ℕ
  nominal_price : ℚ
  execution_order : ℚ
  traded_thing : ℕ
  variability : Variability
  rand : ℚ

/-- Source `ScheduledPayment.absolutize_amount`: the fixed amount for a
FIXED template, otherwise the SLFPS evaluation of the stored formula. -/
def absolutize_amount (c : Ctx) : Except EvalErr ℚ :=
  match c.variability with
  | .fixed amt => .ok amt
  | .varFormula f =>
    calculate f ⟨c.nominal_price, c.execution_order, c.rand⟩

/-- The exceptions `perform_payment` can raise: a contract without a
receiver, or a formula evaluation failure.  Raising inside the `atomic`
block rolls the transaction back, so an error leaves the state as it
was before the call. -/
inductive PayErr where
  | noReceiver
  | formulaError (e : EvalErr)

/-- Source `ScheduledPayment.perform_payment`: inside one transaction,
return at once when already processed (diagnostic only, no error), mark
processed, require a receiver, resolve the amount, run the transfer, set
`paid` when the transferred amount equals the resolved amount and
`missed_payment` otherwise, and append a TransactionLog row.  The rating
rows and rating-log rows are not touched anywhere on this path. -/
def perform_payment (c : Ctx) (w : World) : Except PayErr World :=
  if w.sp.was_processed then .ok w
  else
    match c.receiver with
    | none => .error .noReceiver
    | some rcv =>
      match absolutize_amount c with
      | .error e => .error (.formulaError e)
      | .ok amt =>
        let res := transfer_ownership c.emitter c.traded_thing amt rcv w
        let transferred := res.1
        let w2 := res.2.2
        let sp2 : SPState :=
          if transferred = amt then
            { was_processed := true, paid := true,
              missed_payment := w.sp.missed_payment }
          else
            { was_processed := true, paid := w.sp.paid,
              missed_payment := true }
        let log : TxLogRow :=
          ⟨c.emitter, rcv, c.traded_thing, amt, transferred⟩
        .ok { w2 with sp := sp2, txLogs := w2.txLogs ++ [log] }

-- ====================================================================
-- Rating engine (`contracts/models.py`, class Rating)

/-- Source `Corporation.has_how_many`: a `get_or_create` that returns the
stored amount and, when no row existed, leaves a fresh zero row behind. -/
def has_how_many (c t : ℕ) (rows : List OwnRow) : ℚ × List OwnRow :=
  (ownAmount (getOrCreate rows c t) c t, getOrCreate rows c t)

/-- The increase `Rating.payment_was_ok` computes: the maximum 2 when the
payer's current balance is zero, else `clip(2 * (amount / balance)
quantized to four places, 0, 2)`. -/
def okIncrease (amount current : ℚ) : ℚ :=
  if current = 0 then 2 else clip (2 * quantize4 (amount / current)) 0 2

/-- Replace each rating row of the given corporation by the clamped
adjusted rating, leaving other corporations' rows alone (the effect of
`Rating.objects.get` followed by `save`). -/
def adjustRatings (rs : List RatingRow) (c : ℕ) (delta : ℚ) : List RatingRow :=
  rs.map (fun rt =>
    if rt.corp == c then { rt with rating := clip (rt.rating + delta) 0 100 } else rt)

/-- Source `Rating.payment_was_ok` for emitter `c` holding the settled
thing `t`: read the emitter's current balance through `has_how_many`
(which may create a zero row), compute the increase, clamp the rating
into [0,100], and append a RatingLog entry.  When no rating row exists
the `Rating.objects.get` raises and nothing past the balance read
persists. -/
def payment_was_ok (c t : ℕ) (amount : ℚ) (w : World) : World :=
  let res := has_how_many c t w.rows
  let increase := okIncrease amount res.1
  match w.ratings.find? (fun rt => rt.corp == c) with
  | none => { w with rows := res.2 }
  | some _ =>
    { w with rows := res.2,
             ratings := adjustRatings w.ratings c increase,
             ratingLogs := w.ratingLogs ++ [⟨c, increase⟩] }

/-- Source `Rating.payment_was_not_ok` for emitter `c`: a flat decrease
of 40, clamped into [0,100], with a RatingLog entry. -/
def payment_was_not_ok (c : ℕ) (w : World) : World :=
  let decrease : ℚ := -40
  match w.ratings.find? (fun rt => rt.corp == c) with
  | none => w
  | some _ =>
    { w with ratings := adjustRatings w.ratings c decrease,
             ratingLogs := w.ratingLogs ++ [⟨c, decrease⟩] }

/-- One settlement outcome as (the spec says) the rating engine should be
fed it: a full payment of some amount by some emitter in some thing, or a
partial/missed payment by some emitter. -/
inductive SettlementOutcome where
  | success (corp thing : ℕ) (amount : ℚ)
  | failure (corp : ℕ)

/-- Dispatch of one settlement outcome to the rating engine. -/
def applyOutcome (w : World) (o : SettlementOutcome) : World :=
  match o with
  | .success c t amount => payment_was_ok c t amount w
  | .failure c => payment_was_not_ok c w

/-- A whole sequence of settlement outcomes fed to the rating engine. -/
def applyOutcomes (w : World) (l : List SettlementOutcome) : World :=
  l.foldl applyOutcome w

-- ====================================================================
-- Corporation creation (`corporations/models.py`, post_save signal)

/-- Source `create_corporation_rating`: on first save of a Corporation the
signal creates one Rating row with score 85 and the newbie marker set. -/
def create_corporation (corp : ℕ) (w : World) : World :=
  { w with ratings := w.ratings ++ [⟨corp, 85, true⟩] }

-- ====================================================================
-- Helper lemmas about the ownership table

theorem findOwn_cons_pos {r : OwnRow} {c t : ℕ} (rows : List OwnRow)
    (hk : (r.corp == c && r.thing == t) = true) :
    findOwn (r :: rows) c t = some r := by
  simp [findOwn, List.find?_cons, hk]

theorem findOwn_cons_neg {r : OwnRow} {c t : ℕ} (rows : List OwnRow)
    (hk : (r.corp == c && r.thing == t) = false) :
    findOwn (r :: rows) c t = findOwn rows c t := by
  simp [findOwn, List.find?_cons, hk]

theorem key_ne_of_ne {r : OwnRow} {c t c₂ t₂ : ℕ}
    (hk : (r.corp == c && r.thing == t) = true) (h : ¬(c₂ = c ∧ t₂ = t)) :
    (r.corp == c₂ && r.thing == t₂) = false := by
  simp only [Bool.and_eq_true, beq_iff_eq] at hk
  by_contra hcon
  simp only [Bool.not_eq_false, Bool.and_eq_true, beq_iff_eq] at hcon
  exact h ⟨by rw [← hcon.1, hk.1], by rw [← hcon.2, hk.2]⟩

theorem findOwn_eq_some_mem {rows : List OwnRow} {c t : ℕ} {r : OwnRow}
    (h : findOwn rows c t = some r) : r ∈ rows := by
  exact List.mem_of_find?_eq_some h

theorem findOwn_eq_some_key {rows : List OwnRow} {c t : ℕ} {r : OwnRow}
    (h : findOwn rows c t = some r) : r.corp = c ∧ r.thing = t := by
  have := List.find?_some h
  simp only [Bool.and_eq_true, beq_iff_eq] at this
  exact this

theorem getOrCreate_of_isSome {rows : List OwnRow} {c t : ℕ}
    (h : (findOwn rows c t).isSome) : getOrCreate rows c t = rows := by
  simp [getOrCreate, h]

theorem findOwn_append_none {rows : List OwnRow} {c t : ℕ} {r : OwnRow}
    (h : findOwn rows c t = none) (hk : r.corp = c ∧ r.thing = t) :
    findOwn (rows ++ [r]) c t = some r := by
  simp only [findOwn] at h ⊢
  rw [List.find?_append, h]
  simp [hk.1, hk.2]

theorem findOwn_getOrCreate_isSome (rows : List OwnRow) (c t : ℕ) :
    (findOwn (getOrCreate rows c t) c t).isSome := by
  cases hno : findOwn rows c t with
  | some r => simp [getOrCreate, hno]
  | none => simp [getOrCreate, hno, findOwn_append_none hno]

theorem ownAmount_getOrCreate_self (rows : List OwnRow) (c t : ℕ) :
    ownAmount (getOrCreate rows c t) c t = ownAmount rows c t := by
  cases hno : findOwn rows c t with
  | some r => simp [getOrCreate, hno]
  | none => simp [ownAmount, getOrCreate, hno, findOwn_append_none hno]

theorem findOwn_getOrCreate_other {c t c₂ t₂ : ℕ} (rows : List OwnRow)
    (h : ¬(c₂ = c ∧ t₂ = t)) :
    findOwn (getOrCreate rows c t) c₂ t₂ = findOwn rows c₂ t₂ := by
  cases hs : findOwn rows c t with
  | some r => simp [getOrCreate, hs]
  | none =>
    have hg : getOrCreate rows c t = rows ++ [(⟨c, t, 0⟩ : OwnRow)] := by
      simp [getOrCreate, hs]
    have hk : ((⟨c, t, 0⟩ : OwnRow).corp == c₂ && (⟨c, t, 0⟩ : OwnRow).thing == t₂) = false :=
      key_ne_of_ne (by simp) h
    rw [hg]
    simp only [findOwn, List.find?_append]
    rw [show List.find? (fun r => r.corp == c₂ && r.thing == t₂) [(⟨c, t, 0⟩ : OwnRow)]
        = none from by simp [List.find?_cons, hk]]
    cases List.find? (fun r => r.corp == c₂ && r.thing == t₂) rows <;> rfl

theorem ownAmount_getOrCreate_other {c t c₂ t₂ : ℕ} (rows : List OwnRow)
    (h : ¬(c₂ = c ∧ t₂ = t)) :
    ownAmount (getOrCreate rows c t) c₂ t₂ = ownAmount rows c₂ t₂ := by
  simp [ownAmount, findOwn_getOrCreate_other rows h]

theorem findOwn_setOwn_self {rows : List OwnRow} {c t : ℕ} (v : ℚ)
    (h : (findOwn rows c t).isSome) :
    ∃ r, findOwn (setOwn rows c t v) c t = some r ∧ r.amount = v := by
  induction rows with
  | nil => simp [findOwn] at h
  | cons r rs ih =>
    cases hk : (r.corp == c && r.thing == t) with
    | true =>
      refine ⟨{ r with amount := v }, ?_, rfl⟩
      have hk₂ : (({ r with amount := v } : OwnRow).corp == c &&
          ({ r with amount := v } : OwnRow).thing == t) = true := hk
      simp only [setOwn, hk, if_true]
      exact findOwn_cons_pos _ hk₂
    | false =>
      have h₀ : (findOwn rs c t).isSome := by
        rwa [findOwn_cons_neg rs hk] at h
      rcases ih h₀ with ⟨r₂, h₂, hv⟩
      refine ⟨r₂, ?_, hv⟩
      simp only [setOwn, hk, Bool.false_eq_true, if_false]
      rw [findOwn_cons_neg _ hk]
      exact h₂

theorem ownAmount_setOwn_self {rows : List OwnRow} {c t : ℕ} (v : ℚ)
    (h : (findOwn rows c t).isSome) :
    ownAmount (setOwn rows c t v) c t = v := by
  rcases findOwn_setOwn_self v h with ⟨r, hr, hv⟩
  simp [ownAmount, hr, hv]

theorem findOwn_setOwn_other {c t c₂ t₂ : ℕ} (rows : List OwnRow) (v : ℚ)
    (h : ¬(c₂ = c ∧ t₂ = t)) :
    findOwn (setOwn rows c t v) c₂ t₂ = findOwn rows c₂ t₂ := by
  induction rows with
  | nil => simp [setOwn]
  | cons r rs ih =>
    cases hk : (r.corp == c && r.thing == t) with
    | true =>
      have hk₂ : (r.corp == c₂ && r.thing == t₂) = false := key_ne_of_ne hk h
      have hk₂' : (({ r with amount := v } : OwnRow).corp == c₂ &&
          ({ r with amount := v } : OwnRow).thing == t₂) = false := hk₂
      simp only [setOwn, hk, if_true]
      rw [findOwn_cons_neg _ hk₂', findOwn_cons_neg _ hk₂]
    | false =>
      simp only [setOwn, hk, Bool.false_eq_true, if_false]
      cases hk₂ : (r.corp == c₂ && r.thing == t₂) with
      | true => rw [findOwn_cons_pos _ hk₂, findOwn_cons_pos _ hk₂]
      | false => rw [findOwn_cons_neg _ hk₂, findOwn_cons_neg _ hk₂]; exact ih

theorem ownAmount_setOwn_other {c t c₂ t₂ : ℕ} (rows : List OwnRow) (v : ℚ)
    (h : ¬(c₂ = c ∧ t₂ = t)) :
    ownAmount (setOwn rows c t v) c₂ t₂ = ownAmount rows c₂ t₂ := by
  simp [ownAmount, findOwn_setOwn_other rows v h]

theorem findOwn_delOwn_self (rows : List OwnRow) (c t : ℕ) :
    findOwn (delOwn rows c t) c t = none := by
  simp only [findOwn, delOwn, List.find?_eq_none, List.mem_filter]
  intro r hr
  have h₂ := hr.2
  simp only [Bool.not_eq_true', Bool.and_eq_false_iff, beq_eq_false_iff_ne, ne_eq] at h₂
  simp only [Bool.and_eq_true, beq_iff_eq, not_and]
  tauto

theorem ownAmount_delOwn_self (rows : List OwnRow) (c t : ℕ) :
    ownAmount (delOwn rows c t) c t = 0 := by
  simp [ownAmount, findOwn_delOwn_self]

theorem findOwn_delOwn_other {c t c₂ t₂ : ℕ} (rows : List OwnRow)
    (h : ¬(c₂ = c ∧ t₂ = t)) :
    findOwn (delOwn rows c t) c₂ t₂ = findOwn rows c₂ t₂ := by
  induction rows with
  | nil => simp [delOwn]
  | cons r rs ih =>
    cases hk : (r.corp == c && r.thing == t) with
    | true =>
      have hk₂ : (r.corp == c₂ && r.thing == t₂) = false := key_ne_of_ne hk h
      have hk' := hk
      simp only [Bool.and_eq_true, beq_iff_eq] at hk'
      have hd : delOwn (r :: rs) c t = delOwn rs c t := by
        simp [delOwn, List.filter_cons, hk'.1, hk'.2]
      rw [hd, ih, findOwn_cons_neg _ hk₂]
    | false =>
      have hd : delOwn (r :: rs) c t = r :: delOwn rs c t := by
        simp only [delOwn, List.filter_cons, hk, Bool.not_false, if_true]
      rw [hd]
      cases hk₂ : (r.corp == c₂ && r.thing == t₂) with
      | true => rw [findOwn_cons_pos _ hk₂, findOwn_cons_pos _ hk₂]
      | false => rw [findOwn_cons_neg _ hk₂, findOwn_cons_neg _ hk₂]; exact ih

theorem ownAmount_delOwn_other {c t c₂ t₂ : ℕ} (rows : List OwnRow)
    (h : ¬(c₂ = c ∧ t₂ = t)) :
    ownAmount (delOwn rows c t) c₂ t₂ = ownAmount rows c₂ t₂ := by
  simp [ownAmount, findOwn_delOwn_other rows h]

-- ====================================================================
-- Helper lemmas about formula evaluation

theorem calculate_numLeaf {s : String} (e : Env) (h : isNumberTok s = true) :
    calculate (.leaf s) e = .ok (parseDecimal s) := by
  simp [calculate, h]

theorem calculate_comp {head : String} {args : List Formula} (e : Env)
    (h : knownFun head = true) :
    calculate (.comp head args) e =
      match calcArgs args e with
      | .error er => .error er
      | .ok vals => applyFun head vals e := by
  simp [calculate, h]

theorem calcArgs_nil (e : Env) : calcArgs [] e = .ok [] := rfl

theorem calcArgs_cons_ok {a : Formula} {v : ℚ} (rest : List Formula) (e : Env)
    (h : calculate a e = .ok v) :
    calcArgs (a :: rest) e =
      match calcArgs rest e with
      | .error er => .error er
      | .ok vs => .ok (v :: vs) := by
  simp [calcArgs, h]

theorem calcArgs_cons_err {a : Formula} {er : EvalErr} (rest : List Formula) (e : Env)
    (h : calculate a e = .error er) :
    calcArgs (a :: rest) e = .error er := by
  simp [calcArgs, h]

-- ====================================================================
-- Claim C8

/-- The environment used for the concrete formula examples: the settled
obligation's contract has nominal price 1000, the obligation is the 6th
occurrence (execution order 5), and the injected entropy is arbitrary. -/
def envC8 : Env := ⟨1000, 5, 37/100⟩

/-- C8: Formula evaluation is exact decimal arithmetic and the `%`
operator computes `percent(whole, pct) = round(whole * pct / 100, 2)`
(two-decimal half-even rounding): evaluating `["%","100","5"]` yields 5,
and evaluating `["%", "nominal_price", ["+", "2.0", "execution_order"]]`
against an obligation with nominal price 1000 and execution order 5
yields 70. -/
theorem claim_C8_percent_formula_examples :
    (∀ (whole pct : ℚ) (e : Env),
      applyFun "%" [whole, pct] e = .ok (percent whole pct) ∧
      percent whole pct = quantize2 (whole * pct / 100)) ∧
    calculate (.comp "%" [.leaf "100", .leaf "5"]) envC8 = .ok 5 ∧
    calculate (.comp "%" [.leaf "nominal_price",
      .comp "+" [.leaf "2.0", .leaf "execution_order"]]) envC8 = .ok 70 := by
  refine ⟨fun whole pct e => ⟨rfl, rfl⟩, ?_, ?_⟩
  · have h100 : calculate (.leaf "100") envC8 = .ok 100 := by
      rw [calculate_numLeaf envC8 (show isNumberTok "100" = true from rfl)]
      rw [parseDecimal]
      rw [show signOf "100".toList = 1 from rfl]
      rw [show digitsToNat (intDigits "100".toList) = 100 from rfl]
      rw [show digitsToNat (fracDigits "100".toList) = 0 from rfl]
      norm_num
    have h5 : calculate (.leaf "5") envC8 = .ok 5 := by
      rw [calculate_numLeaf envC8 (show isNumberTok "5" = true from rfl)]
      rw [parseDecimal]
      rw [show signOf "5".toList = 1 from rfl]
      rw [show digitsToNat (intDigits "5".toList) = 5 from rfl]
      rw [show digitsToNat (fracDigits "5".toList) = 0 from rfl]
      norm_num
    rw [calculate_comp envC8 (show knownFun "%" = true from rfl)]
    rw [calcArgs_cons_ok _ envC8 h100, calcArgs_cons_ok _ envC8 h5, calcArgs_nil]
    show applyFun "%" [100, 5] envC8 = .ok 5
    rw [show applyFun "%" [(100 : ℚ), 5] envC8 = .ok (percent 100 5) from rfl]
    norm_num [percent, quantize2, roundHalfEven, ratFloor]
  · have hnp : calculate (.leaf "nominal_price") envC8 = .ok 1000 := by
      simp [calculate, show isNumberTok "nominal_price" = false from rfl, envC8]
    have h20 : calculate (.leaf "2.0") envC8 = .ok 2 := by
      rw [calculate_numLeaf envC8 (show isNumberTok "2.0" = true from rfl)]
      rw [parseDecimal]
      rw [show signOf "2.0".toList = 1 from rfl]
      rw [show digitsToNat (intDigits "2.0".toList) = 2 from rfl]
      rw [show digitsToNat (fracDigits "2.0".toList) = 0 from rfl]
      norm_num
    have heo : calculate (.leaf "execution_order") envC8 = .ok 5 := by
      simp [calculate, show isNumberTok "execution_order" = false from rfl,
        show ("execution_order" == "nominal_price") = false from rfl, envC8]
    have hplus : calculate (.comp "+" [.leaf "2.0", .leaf "execution_order"]) envC8
        = .ok 7 := by
      rw [calculate_comp envC8 (show knownFun "+" = true from rfl)]
      rw [calcArgs_cons_ok _ envC8 h20, calcArgs_cons_ok _ envC8 heo, calcArgs_nil]
      show applyFun "+" [2, 5] envC8 = .ok 7
      rw [show applyFun "+" [(2 : ℚ), 5] envC8 = .ok (2 + 5) from rfl]
      norm_num
    rw [calculate_comp envC8 (show knownFun "%" = true from rfl)]
    rw [calcArgs_cons_ok _ envC8 hnp, calcArgs_cons_ok _ envC8 hplus, calcArgs_nil]
    show applyFun "%" [1000, 7] envC8 = .ok 70
    rw [show applyFun "%" [(1000 : ℚ), 7] envC8 = .ok (percent 1000 7) from rfl]
    norm_num [percent, quantize2, roundHalfEven, ratFloor]

-- ====================================================================
-- Claim C9

/-- C9: a leaf that is neither a decimal literal nor a registered
variable fails with the "unexpected token" error; a compound form with
an unsupported head fails with the "unknown function" error; both are
typed failures distinct from arithmetic errors such as division by
zero, and all of them propagate through enclosing forms instead of
being swallowed. -/
theorem claim_C9_evaluation_errors (s g : String) (args : List Formula) (e : Env)
    (h1 : isNumberTok s = false) (h2 : s ≠ "nominal_price")
    (h3 : s ≠ "execution_order") (h4 : knownFun g = false) :
    calculate (.leaf s) e = .error (.unexpectedToken s) ∧
    calculate (.comp g args) e = .error (.unknownFunction g) ∧
    EvalErr.unexpectedToken s ≠ EvalErr.divisionByZero ∧
    EvalErr.unknownFunction g ≠ EvalErr.divisionByZero ∧
    calculate (.comp "/" [.leaf "1", .leaf "0"]) e = .error .divisionByZero ∧
    calculate (.comp "+" [.leaf "1", .comp "/" [.leaf "1", .leaf "0"]]) e
      = .error .divisionByZero ∧
    calculate (.comp "+" [.leaf s, .leaf "1"]) e = .error (.unexpectedToken s) := by
  have hleaf : calculate (.leaf s) e = .error (.unexpectedToken s) := by
    simp [calculate, h1, h2, h3]
  have h1v : calculate (.leaf "1") e = .ok 1 := by
    rw [calculate_numLeaf e (show isNumberTok "1" = true from rfl)]
    rw [parseDecimal]
    rw [show signOf "1".toList = 1 from rfl]
    rw [show digitsToNat (intDigits "1".toList) = 1 from rfl]
    rw [show digitsToNat (fracDigits "1".toList) = 0 from rfl]
    norm_num
  have h0v : calculate (.leaf "0") e = .ok 0 := by
    rw [calculate_numLeaf e (show isNumberTok "0" = true from rfl)]
    rw [parseDecimal]
    rw [show signOf "0".toList = 1 from rfl]
    rw [show digitsToNat (intDigits "0".toList) = 0 from rfl]
    rw [show digitsToNat (fracDigits "0".toList) = 0 from rfl]
    norm_num
  have hdiv : calculate (.comp "/" [.leaf "1", .leaf "0"]) e
      = .error .divisionByZero := by
    rw [calculate_comp e (show knownFun "/" = true from rfl)]
    rw [calcArgs_cons_ok _ e h1v, calcArgs_cons_ok _ e h0v, calcArgs_nil]
    show applyFun "/" [1, 0] e = .error .divisionByZero
    simp [applyFun]
  refine ⟨hleaf, ?_, by simp, by simp, hdiv, ?_, ?_⟩
  · simp [calculate, h4]
  · rw [calculate_comp e (show knownFun "+" = true from rfl)]
    rw [calcArgs_cons_ok _ e h1v, calcArgs_cons_err _ e hdiv]
  · rw [calculate_comp e (show knownFun "+" = true from rfl)]
    rw [calcArgs_cons_err _ e hleaf]

/-- Witness for C9 at the concrete bad leaf "coupon_rate" and bad
operator "pow". -/
theorem claim_C9_witness :
    (isNumberTok "coupon_rate" = false ∧ "coupon_rate" ≠ "nominal_price" ∧
     "coupon_rate" ≠ "execution_order" ∧ knownFun "pow" = false) ∧
    (calculate (.leaf "coupon_rate") envC8 = .error (.unexpectedToken "coupon_rate") ∧
     calculate (.comp "pow" [.leaf "2.0"]) envC8 = .error (.unknownFunction "pow") ∧
     EvalErr.unexpectedToken "coupon_rate" ≠ EvalErr.divisionByZero ∧
     EvalErr.unknownFunction "pow" ≠ EvalErr.divisionByZero ∧
     calculate (.comp "/" [.leaf "1", .leaf "0"]) envC8 = .error .divisionByZero ∧
     calculate (.comp "+" [.leaf "1", .comp "/" [.leaf "1", .leaf "0"]]) envC8
       = .error .divisionByZero ∧
     calculate (.comp "+" [.leaf "coupon_rate", .leaf "1"]) envC8
       = .error (.unexpectedToken "coupon_rate")) :=
  ⟨⟨rfl, by decide, by decide, rfl⟩,
    claim_C9_evaluation_errors "coupon_rate" "pow" [.leaf "2.0"] envC8
      rfl (by decide) (by decide) rfl⟩

-- ====================================================================
-- Claim C6

theorem absolutize_every (ta : TimelyAction) (start ev n : ℤ)
    (h1 : ta.regularity = .every) (h2 : ta.every = some ev)
    (h3 : ta.repeat_times = some n) :
    ta.absolutize start = some ((List.range n.toNat).map
      (fun (i : ℕ) => (start + ta.starting_after.getD 0) + (i : ℤ) * ev)) := by
  have hdate : (match ta.starting_after with
      | some d => if d ≠ 0 then start + d else start
      | none => start) = start + ta.starting_after.getD 0 := by
    cases ta.starting_after with
    | none => simp
    | some d =>
      by_cases hd : d = 0
      · simp [hd]
      · simp [hd]
  by_cases h0 : n.toNat = 0
  · simp [TimelyAction.absolutize, h1, h2, h3, h0]
  · simp only [TimelyAction.absolutize, h1, h2, h3, hdate, h0, if_false]

/-- C6: for an EVERY-kind rule with interval `ev > 0` and repeat count
`n`, `absolutize(start)` returns exactly `n` timestamps, the i-th equal
to `start + starting_after + i * ev` (a missing or zero `starting_after`
contributes zero), pairwise strictly increasing, the first equal to
`start + starting_after`. -/
theorem claim_C6_every_expansion (ta : TimelyAction) (start ev n : ℤ)
    (h1 : ta.regularity = .every) (h2 : ta.every = some ev)
    (h3 : ta.repeat_times = some n) (h4 : 0 < ev) :
    ∃ l : List ℤ, ta.absolutize start = some l ∧
      l.length = n.toNat ∧
      (∀ i : ℕ, i < n.toNat →
        l.get? i = some (start + ta.starting_after.getD 0 + (i : ℤ) * ev)) ∧
      l.Pairwise (· < ·) ∧
      (0 < n → l.head? = some (start + ta.starting_after.getD 0)) := by
  refine ⟨_, absolutize_every ta start ev n h1 h2 h3, ?_, ?_, ?_, ?_⟩
  · simp
  · intro i hi
    rw [List.get?_map, List.get?_range hi]
    rfl
  · refine List.Pairwise.map _ ?_ (List.pairwise_lt_range n.toNat)
    intro a b hab
    have : (a : ℤ) < (b : ℤ) := by exact_mod_cast hab
    nlinarith
  · intro hn
    have h0 : n.toNat ≠ 0 := by omega
    obtain ⟨m, hm⟩ := Nat.exists_eq_succ_of_ne_zero h0
    rw [hm, List.range_succ_eq_map]
    simp

/-- Witness for C6: a rule firing every 30 units, 4 times, starting 7
units after activation. -/
theorem claim_C6_witness :
    ((⟨.every, some 7, some 30, some 4, none, none⟩ : TimelyAction).regularity
        = .every ∧ (0 : ℤ) < 30) ∧
    (∃ l : List ℤ,
      (⟨.every, some 7, some 30, some 4, none, none⟩ : TimelyAction).absolutize 100
          = some l ∧
      l.length = (4 : ℤ).toNat ∧
      (∀ i : ℕ, i < (4 : ℤ).toNat →
        l.get? i = some (100 + (some (7 : ℤ)).getD 0 + (i : ℤ) * 30)) ∧
      l.Pairwise (· < ·) ∧
      ((0 : ℤ) < 4 → l.head? = some (100 + (some (7 : ℤ)).getD 0))) :=
  ⟨⟨rfl, by decide⟩,
    claim_C6_every_expansion ⟨.every, some 7, some 30, some 4, none, none⟩
      100 30 4 rfl rfl rfl (by decide)⟩

-- ====================================================================
-- Claim C7

theorem clip_unit_bounds (x : ℚ) : 0 ≤ clip x 0 100 ∧ clip x 0 100 ≤ 100 := by
  unfold clip
  split
  · norm_num
  · split
    · norm_num
    · constructor <;> linarith [show ¬x > (100 : ℚ) from by assumption,
        show ¬x < (0 : ℚ) from by assumption]

theorem mem_adjustRatings {rs : List RatingRow} {c : ℕ} {d : ℚ} {rt : RatingRow}
    (h : rt ∈ adjustRatings rs c d) :
    rt ∈ rs ∨ ∃ rt₀ ∈ rs, rt = { rt₀ with rating := clip (rt₀.rating + d) 0 100 } := by
  rcases List.mem_map.mp h with ⟨rt₀, hmem, heq⟩
  by_cases hc : (rt₀.corp == c) = true
  · right
    exact ⟨rt₀, hmem, by rw [← heq]; simp [hc]⟩
  · left
    rw [Bool.not_eq_true] at hc
    rw [← heq]
    simpa [hc] using hmem

theorem ratings_payment_was_ok (c t : ℕ) (a : ℚ) (w : World)
    (h : ∀ rt ∈ w.ratings, 0 ≤ rt.rating ∧ rt.rating ≤ 100) :
    ∀ rt ∈ (payment_was_ok c t a w).ratings, 0 ≤ rt.rating ∧ rt.rating ≤ 100 := by
  intro rt hrt
  unfold payment_was_ok at hrt
  rcases hfind : w.ratings.find? (fun rt => rt.corp == c) with _ | r₀
  · rw [hfind] at hrt
    exact h rt hrt
  · rw [hfind] at hrt
    simp only at hrt
    rcases mem_adjustRatings hrt with hmem | ⟨rt₀, _, heq⟩
    · exact h rt hmem
    · rw [heq]
      exact clip_unit_bounds _

theorem ratings_payment_was_not_ok (c : ℕ) (w : World)
    (h : ∀ rt ∈ w.ratings, 0 ≤ rt.rating ∧ rt.rating ≤ 100) :
    ∀ rt ∈ (payment_was_not_ok c w).ratings, 0 ≤ rt.rating ∧ rt.rating ≤ 100 := by
  intro rt hrt
  unfold payment_was_not_ok at hrt
  rcases hfind : w.ratings.find? (fun rt => rt.corp == c) with _ | r₀
  · rw [hfind] at hrt
    exact h rt hrt
  · rw [hfind] at hrt
    simp only at hrt
    rcases mem_adjustRatings hrt with hmem | ⟨rt₀, _, heq⟩
    · exact h rt hmem
    · rw [heq]
      exact clip_unit_bounds _

/-- C7: starting from a state whose rating rows all lie in [0,100],
after any sequence of settlement outcomes fed to the rating engine
(full payments and partial/missed payments in any order), every rating
row still lies in [0,100]. -/
theorem claim_C7_rating_bounded (w : World) (l : List SettlementOutcome)
    (h : ∀ rt ∈ w.ratings, 0 ≤ rt.rating ∧ rt.rating ≤ 100) :
    ∀ rt ∈ (applyOutcomes w l).ratings, 0 ≤ rt.rating ∧ rt.rating ≤ 100 := by
  induction l generalizing w with
  | nil => exact h
  | cons o rest ih =>
    have hstep : ∀ rt ∈ (applyOutcome w o).ratings, 0 ≤ rt.rating ∧ rt.rating ≤ 100 := by
      cases o with
      | success c t a => exact ratings_payment_was_ok c t a w h
      | failure c => exact ratings_payment_was_not_ok c w h
    exact ih (applyOutcome w o) hstep

/-- The starting state of the C7 witness: one corporation with a fresh
rating of 85 and a balance of 900. -/
def w7 : World :=
  ⟨[⟨1, 0, 900⟩], [], [⟨1, 85, true⟩], [], [], ⟨false, false, false⟩⟩

/-- Witness for C7: one full payment then two missed payments starting
from a fresh rating of 85. -/
theorem claim_C7_witness :
    (∀ rt ∈ w7.ratings, 0 ≤ rt.rating ∧ rt.rating ≤ 100) ∧
    (∀ rt ∈ (applyOutcomes w7
        [.success 1 0 100, .failure 1, .failure 1]).ratings,
      0 ≤ rt.rating ∧ rt.rating ≤ 100) :=
  ⟨by intro rt hrt; simp [w7] at hrt; simp [hrt]; norm_num,
    claim_C7_rating_bounded _ _
      (by intro rt hrt; simp [w7] at hrt; simp [hrt]; norm_num)⟩

-- ====================================================================
-- Claim C10

/-- C10: saving a new Corporation creates exactly one Rating row for it,
with score 85 and the newbie marker set (assuming, as for a freshly
created corporation, that no rating row for it existed before). -/
theorem claim_C10_initial_rating (w : World) (corp : ℕ)
    (h : ∀ rt ∈ w.ratings, rt.corp ≠ corp) :
    (create_corporation corp w).ratings.filter (fun rt => rt.corp == corp)
      = [⟨corp, 85, true⟩] := by
  simp only [create_corporation, List.filter_append]
  rw [List.filter_eq_nil.mpr (by intro rt hrt; simpa using h rt hrt)]
  simp

/-- The starting state of the C10 witness: only corporation 2 has a
rating row. -/
def w10 : World :=
  ⟨[], [], [⟨2, 50, false⟩], [], [], ⟨false, false, false⟩⟩

/-- Witness for C10: creating corporation 1 in a world that already
holds a rating row for corporation 2 only. -/
theorem claim_C10_witness :
    (∀ rt ∈ w10.ratings, rt.corp ≠ 1) ∧
    (create_corporation 1 w10).ratings.filter
      (fun rt => rt.corp == 1) = [⟨1, 85, true⟩] :=
  ⟨by decide, claim_C10_initial_rating _ 1 (by decide)⟩

-- ====================================================================
-- Claim C5

theorem perform_sets_processed (c : Ctx) (w w1 : World)
    (h : perform_payment c w = .ok w1) : w1.sp.was_processed = true := by
  unfold perform_payment at h
  by_cases hp : w.sp.was_processed = true
  · rw [if_pos hp] at h
    simp only [Except.ok.injEq] at h
    rw [← h]
    exact hp
  · rw [if_neg hp] at h
    cases hr : c.receiver with
    | none => rw [hr] at h; cases h
    | some rcv =>
      rw [hr] at h
      cases ha : absolutize_amount c with
      | error e => rw [ha] at h; cases h
      | ok amt =>
        rw [ha] at h
        simp only [Except.ok.injEq] at h
        rw [← h]
        by_cases ht : (transfer_ownership c.emitter c.traded_thing amt rcv w).1 = amt
        · simp [ht]
        · simp [ht]

/-- C5: settle() is idempotent.  Whenever a first call returns
successfully with state `w1`, a second call on that state is a no-op
that succeeds (no error to the caller) and returns `w1` itself, so all
balances, obligation flags, rating rows and logs are identical after the
second call to what they were after the first. -/
theorem claim_C5_settle_idempotent (c : Ctx) (w w1 : World)
    (h : perform_payment c w = .ok w1) :
    perform_payment c w1 = .ok w1 := by
  unfold perform_payment
  rw [if_pos (perform_sets_processed c w w1 h)]

/-- The context of the C5 witness: a fixed repayment of 100 from
corporation 1 to corporation 2 in thing 0. -/
def ctx5 : Ctx := ⟨1, some 2, 100, 0, 0, .fixed 100, 0⟩

/-- The starting state of the C5 witness: the emitter holds 1000 of
thing 0 and the obligation is unprocessed. -/
def w5 : World := ⟨[⟨1, 0, 1000⟩], [], [⟨1, 85, true⟩], [], [], ⟨false, false, false⟩⟩

/-- The state after the first settlement of the C5 witness. -/
def w5r : World := ⟨[⟨1, 0, 900⟩, ⟨2, 0, 100⟩], [], [⟨1, 85, true⟩], [],
  [⟨1, 2, 0, 100, 100⟩], ⟨true, true, false⟩⟩

/-- Witness for C5: settling the concrete obligation once yields `w5r`;
settling again returns `w5r` unchanged. -/
theorem claim_C5_witness :
    perform_payment ctx5 w5 = .ok w5r ∧ perform_payment ctx5 w5r = .ok w5r := by
  have h : perform_payment ctx5 w5 = .ok w5r := by
    simp only [perform_payment, absolutize_amount, transfer_ownership, getOrCreate,
      findOwn, ownAmount, setOwn, delOwn, ctx5, w5, w5r]
    norm_num [min_def, List.find?]
    rfl
  exact ⟨h, claim_C5_settle_idempotent ctx5 w5 w5r h⟩

-- ====================================================================
-- Claim C2

/-- C2: for an unprocessed obligation (flags at their defaults) whose
contract has a receiver and whose amount resolves, settle() succeeds,
ends with `was_processed = true`, sets `paid` exactly when the
transferred amount equals the resolved amount and `missed_payment`
otherwise, and never sets both. -/
theorem claim_C2_settlement_outcome (c : Ctx) (w : World) (rcv : ℕ) (amt : ℚ)
    (h1 : w.sp.was_processed = false) (h2 : w.sp.paid = false)
    (h3 : w.sp.missed_payment = false) (h4 : c.receiver = some rcv)
    (h5 : absolutize_amount c = .ok amt) :
    ∃ w1, perform_payment c w = .ok w1 ∧
      w1.sp.was_processed = true ∧
      (w1.sp.paid = true ↔
        (transfer_ownership c.emitter c.traded_thing amt rcv w).1 = amt) ∧
      ((w1.sp.paid = true ∧ w1.sp.missed_payment = false) ∨
       (w1.sp.paid = false ∧ w1.sp.missed_payment = true)) := by
  unfold perform_payment
  rw [if_neg (by rw [h1]; simp), h4, h5]
  by_cases ht : (transfer_ownership c.emitter c.traded_thing amt rcv w).1 = amt
  · exact ⟨_, rfl, by simp [ht, h3]⟩
  · exact ⟨_, rfl, by simp [ht, h2]⟩

/-- Witness for C2 at the concrete fully funded obligation of `w5`. -/
theorem claim_C2_witness :
    (w5.sp.was_processed = false ∧ w5.sp.paid = false ∧
     w5.sp.missed_payment = false ∧ ctx5.receiver = some 2 ∧
     absolutize_amount ctx5 = .ok 100) ∧
    (∃ w1, perform_payment ctx5 w5 = .ok w1 ∧
      w1.sp.was_processed = true ∧
      (w1.sp.paid = true ↔
        (transfer_ownership ctx5.emitter ctx5.traded_thing 100 2 w5).1 = 100) ∧
      ((w1.sp.paid = true ∧ w1.sp.missed_payment = false) ∨
       (w1.sp.paid = false ∧ w1.sp.missed_payment = true))) :=
  ⟨⟨rfl, rfl, rfl, rfl, rfl⟩,
    claim_C2_settlement_outcome ctx5 w5 2 100 rfl rfl rfl rfl rfl⟩

-- ====================================================================
-- Claim C1

theorem ratFloor_eq (q : ℚ) : ratFloor q = ⌊q⌋ := by
  rw [ratFloor, Rat.floor_def]
  exact Int.fdiv_eq_ediv _ (Int.natCast_nonneg _)

/-- The context of the spec's end-to-end scenario: a fixed repayment of
100 from corporation 1 (balance 1000) to corporation 2. -/
def ctx1 : Ctx := ⟨1, some 2, 1000, 0, 0, .fixed 100, 0⟩

/-- The starting state of the scenario behind C1. -/
def w1c : World := ⟨[⟨1, 0, 1000⟩], [], [⟨1, 85, true⟩, ⟨2, 85, true⟩], [], [],
  ⟨false, false, false⟩⟩

/-- The state `perform_payment` actually produces in that scenario. -/
def w1r : World := ⟨[⟨1, 0, 900⟩, ⟨2, 0, 100⟩], [], [⟨1, 85, true⟩, ⟨2, 85, true⟩], [],
  [⟨1, 2, 0, 100, 100⟩], ⟨true, true, false⟩⟩

/-- C1: the settlement path never notifies the rating engine.  In the
spec's own end-to-end scenario (balance 1000, full payment of 100) the
completed settlement leaves the rating rows and the rating log exactly
as they were, although `Rating.payment_was_ok` — had it been invoked as
the spec requires — would have raised the payer's rating by
clip(2 * (100/900) quantized, 0, 2) = 1111/5000 ≈ 0.2222 to
426111/5000 ≈ 85.2222 and appended a RatingLog entry.  The repository's
own rating-system tests expect exactly that increase and log entry
after `perform_payment`. -/
theorem claim_C1_rating_engine_not_notified :
    perform_payment ctx1 w1c = .ok w1r ∧
    w1r.sp.paid = true ∧
    w1r.ratings = w1c.ratings ∧
    w1r.ratingLogs = w1c.ratingLogs ∧
    (payment_was_ok 1 0 100 w1r).ratings = [⟨1, 426111/5000, true⟩, ⟨2, 85, true⟩] ∧
    (payment_was_ok 1 0 100 w1r).ratingLogs = [⟨1, 1111/5000⟩] ∧
    (426111 : ℚ)/5000 ≠ 85 := by
  refine ⟨?_, rfl, rfl, rfl, ?_, ?_, by norm_num⟩
  · simp only [perform_payment, absolutize_amount, transfer_ownership, getOrCreate,
      findOwn, ownAmount, setOwn, delOwn, ctx1, w1c, w1r]
    norm_num [min_def, List.find?]
    rfl
  · simp only [payment_was_ok, has_how_many, getOrCreate, findOwn, ownAmount,
      okIncrease, adjustRatings, clip, w1r]
    norm_num [List.find?, quantize4, roundHalfEven, ratFloor_eq]
  · simp only [payment_was_ok, has_how_many, getOrCreate, findOwn, ownAmount,
      okIncrease, adjustRatings, clip, w1r]
    norm_num [List.find?, quantize4, roundHalfEven, ratFloor_eq]

-- ====================================================================
-- Claim C3

/-- The starting state of the C3 counterexample: corporation 1 holds 5
of thing 0. -/
def w3s : World := ⟨[⟨1, 0, 5⟩], [], [], [], [], ⟨false, false, false⟩⟩

/-- An empty ledger. -/
def wE : World := ⟨[], [], [], [], [], ⟨false, false, false⟩⟩

/-- Counterexample to C3 as stated over every call.  (a) A self-transfer
of the payer's full balance (from = to = 1, amount 5, balance 5) returns
(5, false), but the stale in-memory zero test then deletes the row the
credit had restored: the final balance is 0, not the b - 5 + 5 = 5 that
debit-by-min plus credit-by-min demands.  (b) A negative requested
amount (-3) against an absent balance returns (-3, false) and moves
nothing: the payer's balance stays 0 instead of the claimed
b - min(amount, b) = 0 - (-3) = 3. -/
theorem claim_C3_counterexample :
    ((transfer_ownership 1 0 5 1 w3s).1 = 5 ∧
     (transfer_ownership 1 0 5 1 w3s).2.1 = false ∧
     balanceOf (transfer_ownership 1 0 5 1 w3s).2.2 1 0 = 0 ∧
     balanceOf w3s 1 0 - min 5 (balanceOf w3s 1 0) + min 5 (balanceOf w3s 1 0) = 5 ∧
     (0 : ℚ) ≠ 5) ∧
    ((transfer_ownership 1 0 (-3) 2 wE).1 = -3 ∧
     balanceOf (transfer_ownership 1 0 (-3) 2 wE).2.2 1 0 = 0 ∧
     balanceOf wE 1 0 - min (-3) (balanceOf wE 1 0) = 3 ∧
     (0 : ℚ) ≠ 3) := by
  constructor
  · refine ⟨?_, ?_, ?_, ?_, by norm_num⟩ <;>
    · simp only [transfer_ownership, getOrCreate, findOwn, ownAmount, setOwn, delOwn,
        balanceOf, w3s]
      norm_num [min_def, List.find?]
  · refine ⟨?_, ?_, ?_, by norm_num⟩ <;>
    · simp only [transfer_ownership, getOrCreate, findOwn, ownAmount, setOwn, delOwn,
        balanceOf, wE]
      norm_num [min_def, List.find?]

/-- C3 (amended): for distinct payer and receiver, a nonnegative
requested amount and a nonnegative payer balance b, the transfer returns
(min(amount, b), min(amount, b) < amount), debits the payer and credits
the receiver by exactly min(amount, b), and stamps the payer bankrupt
exactly when min(amount, b) < amount (otherwise the bankruptcy list is
untouched); in particular with sufficient funds the transferred amount
equals the requested amount and the flag is false. -/
theorem claim_C3_amended_transfer (self toCorp thing : ℕ) (amount : ℚ) (w : World)
    (hne : self ≠ toCorp) (hamt : 0 ≤ amount) (hbal : 0 ≤ balanceOf w self thing) :
    (transfer_ownership self thing amount toCorp w).1
        = min amount (balanceOf w self thing) ∧
    ((transfer_ownership self thing amount toCorp w).2.1 = true ↔
        min amount (balanceOf w self thing) < amount) ∧
    balanceOf (transfer_ownership self thing amount toCorp w).2.2 self thing
        = balanceOf w self thing - min amount (balanceOf w self thing) ∧
    balanceOf (transfer_ownership self thing amount toCorp w).2.2 toCorp thing
        = balanceOf w toCorp thing + min amount (balanceOf w self thing) ∧
    (min amount (balanceOf w self thing) < amount →
      self ∈ (transfer_ownership self thing amount toCorp w).2.2.bankrupt) ∧
    (¬ min amount (balanceOf w self thing) < amount →
      (transfer_ownership self thing amount toCorp w).2.2.bankrupt = w.bankrupt) := by
  have hkey1 : ¬(toCorp = self ∧ thing = thing) := fun h => hne h.1.symm
  have hkey2 : ¬(self = toCorp ∧ thing = thing) := fun h => hne h.1
  have hb : ownAmount (getOrCreate w.rows self thing) self thing
      = balanceOf w self thing := ownAmount_getOrCreate_self _ _ _
  have hsome1 : (findOwn (getOrCreate w.rows self thing) self thing).isSome :=
    findOwn_getOrCreate_isSome _ _ _
  simp only [transfer_ownership, hb]
  by_cases ht : 0 < min amount (balanceOf w self thing)
  · rw [if_pos ht]
    have h2self : ownAmount (setOwn (getOrCreate w.rows self thing) self thing
        (balanceOf w self thing - min amount (balanceOf w self thing))) self thing
        = balanceOf w self thing - min amount (balanceOf w self thing) :=
      ownAmount_setOwn_self _ hsome1
    have h2recv : ownAmount (setOwn (getOrCreate w.rows self thing) self thing
        (balanceOf w self thing - min amount (balanceOf w self thing))) toCorp thing
        = balanceOf w toCorp thing := by
      rw [ownAmount_setOwn_other _ _ hkey1]
      exact ownAmount_getOrCreate_other _ hkey1
    have h3recv : ownAmount (getOrCreate (setOwn (getOrCreate w.rows self thing)
        self thing (balanceOf w self thing - min amount (balanceOf w self thing)))
        toCorp thing) toCorp thing = balanceOf w toCorp thing := by
      rw [ownAmount_getOrCreate_self]
      exact h2recv
    have h3self : ownAmount (getOrCreate (setOwn (getOrCreate w.rows self thing)
        self thing (balanceOf w self thing - min amount (balanceOf w self thing)))
        toCorp thing) self thing
        = balanceOf w self thing - min amount (balanceOf w self thing) := by
      rw [ownAmount_getOrCreate_other _ hkey2]
      exact h2self
    have hsome3 : (findOwn (getOrCreate (setOwn (getOrCreate w.rows self thing)
        self thing (balanceOf w self thing - min amount (balanceOf w self thing)))
        toCorp thing) toCorp thing).isSome := findOwn_getOrCreate_isSome _ _ _
    have h4recv : ownAmount (setOwn (getOrCreate (setOwn (getOrCreate w.rows self thing)
        self thing (balanceOf w self thing - min amount (balanceOf w self thing)))
        toCorp thing) toCorp thing
        (ownAmount (getOrCreate (setOwn (getOrCreate w.rows self thing)
          self thing (balanceOf w self thing - min amount (balanceOf w self thing)))
          toCorp thing) toCorp thing + min amount (balanceOf w self thing)))
        toCorp thing
        = balanceOf w toCorp thing + min amount (balanceOf w self thing) := by
      rw [ownAmount_setOwn_self _ hsome3, h3recv]
    have h4self : ownAmount (setOwn (getOrCreate (setOwn (getOrCreate w.rows self thing)
        self thing (balanceOf w self thing - min amount (balanceOf w self thing)))
        toCorp thing) toCorp thing
        (ownAmount (getOrCreate (setOwn (getOrCreate w.rows self thing)
          self thing (balanceOf w self thing - min amount (balanceOf w self thing)))
          toCorp thing) toCorp thing + min amount (balanceOf w self thing)))
        self thing
        = balanceOf w self thing - min amount (balanceOf w self thing) := by
      rw [ownAmount_setOwn_other _ _ hkey2]
      exact h3self
    refine ⟨rfl, decide_eq_true_iff, ?_, ?_, ?_, ?_⟩
    · by_cases hz : balanceOf w self thing - min amount (balanceOf w self thing) = 0
      · rw [if_pos hz]
        simp only [balanceOf, ownAmount_delOwn_self]
        exact hz.symm
      · rw [if_neg hz]
        exact h4self
    · by_cases hz : balanceOf w self thing - min amount (balanceOf w self thing) = 0
      · rw [if_pos hz]
        simp only [balanceOf]
        rw [ownAmount_delOwn_other _ hkey1]
        exact h4recv
      · rw [if_neg hz]
        exact h4recv
    · intro hlt
      rw [if_pos hlt]
      exact List.mem_cons_self _ _
    · intro hlt
      rw [if_neg hlt]
  · rw [if_neg ht]
    have hmin0 : min amount (balanceOf w self thing) = 0 := by
      have h0 := le_min hamt hbal
      push_neg at ht
      linarith
    refine ⟨rfl, decide_eq_true_iff, ?_, ?_, ?_, ?_⟩
    · rw [hmin0, sub_zero]
      exact hb
    · rw [hmin0, add_zero]
      simp only [balanceOf]
      exact ownAmount_getOrCreate_other _ hkey1
    · intro hlt
      rw [if_pos hlt]
      exact List.mem_cons_self _ _
    · intro hlt
      rw [if_neg hlt]

/-- The starting state of the C3 witness: corporation 1 holds 100 of
thing 0. -/
def w3w : World := ⟨[⟨1, 0, 100⟩], [], [], [], [], ⟨false, false, false⟩⟩

/-- Witness for the amended C3: a transfer of 30 between distinct
corporations 1 and 2 out of a balance of 100. -/
theorem claim_C3_witness :
    ((1 : ℕ) ≠ 2 ∧ (0 : ℚ) ≤ 30 ∧ 0 ≤ balanceOf w3w 1 0) ∧
    ((transfer_ownership 1 0 30 2 w3w).1 = min 30 (balanceOf w3w 1 0) ∧
     ((transfer_ownership 1 0 30 2 w3w).2.1 = true ↔
        min 30 (balanceOf w3w 1 0) < 30) ∧
     balanceOf (transfer_ownership 1 0 30 2 w3w).2.2 1 0
        = balanceOf w3w 1 0 - min 30 (balanceOf w3w 1 0) ∧
     balanceOf (transfer_ownership 1 0 30 2 w3w).2.2 2 0
        = balanceOf w3w 2 0 + min 30 (balanceOf w3w 1 0) ∧
     (min 30 (balanceOf w3w 1 0) < 30 →
       (1 : ℕ) ∈ (transfer_ownership 1 0 30 2 w3w).2.2.bankrupt) ∧
     (¬ min 30 (balanceOf w3w 1 0) < 30 →
       (transfer_ownership 1 0 30 2 w3w).2.2.bankrupt = w3w.bankrupt)) :=
  ⟨⟨by decide, by norm_num,
      by norm_num [balanceOf, ownAmount, findOwn, w3w, List.find?]⟩,
    claim_C3_amended_transfer 1 2 0 30 w3w (by decide) (by norm_num)
      (by norm_num [balanceOf, ownAmount, findOwn, w3w, List.find?])⟩

-- ====================================================================
-- Claim C4

theorem mem_setOwn {rows : List OwnRow} {c t : ℕ} {v : ℚ} {r : OwnRow}
    (h : r ∈ setOwn rows c t v) :
    r ∈ rows ∨ (r.corp = c ∧ r.thing = t ∧ r.amount = v) := by
  induction rows with
  | nil => simp [setOwn] at h
  | cons r₀ rs ih =>
    cases hk : (r₀.corp == c && r₀.thing == t) with
    | true =>
      simp only [setOwn, hk, if_true] at h
      rcases List.mem_cons.mp h with heq | hmem
      · right
        have hk' := hk
        simp only [Bool.and_eq_true, beq_iff_eq] at hk'
        rw [heq]
        exact ⟨hk'.1, hk'.2, rfl⟩
      · exact Or.inl (List.mem_cons_of_mem _ hmem)
    | false =>
      simp only [setOwn, hk, Bool.false_eq_true, if_false] at h
      rcases List.mem_cons.mp h with heq | hmem
      · exact Or.inl (heq ▸ List.mem_cons_self _ _)
      · rcases ih hmem with h₁ | h₂
        · exact Or.inl (List.mem_cons_of_mem _ h₁)
        · exact Or.inr h₂

theorem mem_delOwn {rows : List OwnRow} {c t : ℕ} {r : OwnRow}
    (h : r ∈ delOwn rows c t) : r ∈ rows ∧ ¬(r.corp = c ∧ r.thing = t) := by
  simp only [delOwn, List.mem_filter] at h
  refine ⟨h.1, ?_⟩
  have h₂ := h.2
  simp only [Bool.not_eq_true', Bool.and_eq_false_iff, beq_eq_false_iff_ne, ne_eq] at h₂
  tauto

theorem setOwn_append_none {rows : List OwnRow} {c t : ℕ} (a v : ℚ)
    (h : findOwn rows c t = none) :
    setOwn (rows ++ [⟨c, t, a⟩]) c t v = rows ++ [⟨c, t, v⟩] := by
  induction rows with
  | nil => simp [setOwn]
  | cons r rs ih =>
    cases hk : (r.corp == c && r.thing == t) with
    | true =>
      rw [findOwn_cons_pos rs hk] at h
      cases h
    | false =>
      rw [findOwn_cons_neg rs hk] at h
      rw [List.cons_append, setOwn, if_neg (by simp [hk]), ih h, List.cons_append]

theorem findOwn_isSome_of_ne {rows : List OwnRow} {c t : ℕ}
    (h : ownAmount rows c t ≠ 0) : (findOwn rows c t).isSome := by
  cases hf : findOwn rows c t with
  | none => exact absurd (by simp [ownAmount, hf]) h
  | some r => simp

theorem ownAmount_of_findOwn {rows : List OwnRow} {c t : ℕ} {r : OwnRow}
    (h : findOwn rows c t = some r) : ownAmount rows c t = r.amount := by
  simp [ownAmount, h]

/-- Counterexample to C4 as stated over any transfer: a transfer of 5
from corporation 1, which has no stored balance, to corporation 2 ends
with a stored (1, thing 0) row of amount exactly zero — the
`get_or_create` creates the zero row and the deletion branch never runs
because nothing was transferable. -/
theorem claim_C4_counterexample :
    ¬ (∀ r ∈ (transfer_ownership 1 0 5 2 wE).2.2.rows, r.amount ≠ 0) := by
  have h : (transfer_ownership 1 0 5 2 wE).2.2.rows = [⟨1, 0, 0⟩] := by
    simp only [transfer_ownership, getOrCreate, findOwn, ownAmount, setOwn, delOwn, wE]
    norm_num [min_def, List.find?]
  intro hall
  exact hall ⟨1, 0, 0⟩ (by rw [h]; exact List.mem_singleton_self _) rfl

/-- C4 (amended): provided every stored balance row is positive and the
payer has a stored (hence positive) balance in the transferred asset,
no (party, asset) row with amount exactly zero remains after the
transfer — every row left is positive, the payer's row being deleted
exactly when it reaches zero.  (When the payer has no stored balance, a
zero row is created for it and remains, as the counterexample shows.) -/
theorem claim_C4_amended_sparse (self toCorp thing : ℕ) (amount : ℚ) (w : World)
    (hpos : ∀ r ∈ w.rows, 0 < r.amount)
    (hbal : 0 < balanceOf w self thing) :
    ∀ r ∈ (transfer_ownership self thing amount toCorp w).2.2.rows,
      r.amount ≠ 0 ∧ 0 < r.amount := by
  have hsome : (findOwn w.rows self thing).isSome :=
    findOwn_isSome_of_ne (ne_of_lt hbal).symm
  have hrows1 : getOrCreate w.rows self thing = w.rows := getOrCreate_of_isSome hsome
  simp only [transfer_ownership, hrows1]
  by_cases ht : 0 < min amount (ownAmount w.rows self thing)
  · rw [if_pos ht]
    have htb : min amount (ownAmount w.rows self thing)
        ≤ ownAmount w.rows self thing := min_le_right _ _
    have hbt : 0 ≤ ownAmount w.rows self thing
        - min amount (ownAmount w.rows self thing) := by linarith
    have hmem2 : ∀ r ∈ setOwn w.rows self thing
        (ownAmount w.rows self thing - min amount (ownAmount w.rows self thing)),
        0 < r.amount ∨ (r.corp = self ∧ r.thing = thing ∧
          r.amount = ownAmount w.rows self thing
            - min amount (ownAmount w.rows self thing)) := by
      intro r hr
      rcases mem_setOwn hr with h₁ | h₂
      · exact Or.inl (hpos r h₁)
      · exact Or.inr h₂
    cases hrecv : findOwn (setOwn w.rows self thing
        (ownAmount w.rows self thing - min amount (ownAmount w.rows self thing)))
        toCorp thing with
    | some r₀ =>
      have hrows3 : getOrCreate (setOwn w.rows self thing
          (ownAmount w.rows self thing - min amount (ownAmount w.rows self thing)))
          toCorp thing
          = setOwn w.rows self thing
            (ownAmount w.rows self thing - min amount (ownAmount w.rows self thing)) :=
        getOrCreate_of_isSome (by simp [hrecv])
      rw [hrows3]
      have hmem4 : ∀ r ∈ setOwn (setOwn w.rows self thing
          (ownAmount w.rows self thing - min amount (ownAmount w.rows self thing)))
          toCorp thing
          (ownAmount (setOwn w.rows self thing
            (ownAmount w.rows self thing - min amount (ownAmount w.rows self thing)))
            toCorp thing + min amount (ownAmount w.rows self thing)),
          0 < r.amount ∨ (r.corp = self ∧ r.thing = thing ∧
            r.amount = ownAmount w.rows self thing
              - min amount (ownAmount w.rows self thing)) := by
        have hrecvamt : 0 ≤ ownAmount (setOwn w.rows self thing
            (ownAmount w.rows self thing - min amount (ownAmount w.rows self thing)))
            toCorp thing := by
          rw [ownAmount_of_findOwn hrecv]
          rcases hmem2 r₀ (findOwn_eq_some_mem hrecv) with h₁ | h₂
          · linarith
          · rw [h₂.2.2]
            exact hbt
        intro r hr
        rcases mem_setOwn hr with h₁ | h₂
        · exact hmem2 r h₁
        · left
          rw [h₂.2.2]
          linarith
      by_cases hz : ownAmount w.rows self thing
          - min amount (ownAmount w.rows self thing) = 0
      · rw [if_pos hz]
        intro r hr
        rcases mem_delOwn hr with ⟨hmem, hkey⟩
        rcases hmem4 r hmem with h₁ | h₂
        · exact ⟨(ne_of_lt h₁).symm, h₁⟩
        · exact absurd ⟨h₂.1, h₂.2.1⟩ hkey
      · rw [if_neg hz]
        intro r hr
        rcases hmem4 r hr with h₁ | h₂
        · exact ⟨(ne_of_lt h₁).symm, h₁⟩
        · have hpos' : 0 < r.amount := by
            rw [h₂.2.2]
            rcases lt_or_eq_of_le hbt with h | h
            · exact h
            · exact absurd h.symm hz
          exact ⟨(ne_of_lt hpos').symm, hpos'⟩
    | none =>
      have hrows3 : getOrCreate (setOwn w.rows self thing
          (ownAmount w.rows self thing - min amount (ownAmount w.rows self thing)))
          toCorp thing
          = setOwn w.rows self thing
            (ownAmount w.rows self thing - min amount (ownAmount w.rows self thing))
            ++ [⟨toCorp, thing, 0⟩] := by
        simp [getOrCreate, hrecv]
      rw [hrows3]
      have hrecv0 : ownAmount (setOwn w.rows self thing
          (ownAmount w.rows self thing - min amount (ownAmount w.rows self thing))
          ++ [⟨toCorp, thing, 0⟩]) toCorp thing = 0 := by
        have hf := @findOwn_append_none _ _ _ ⟨toCorp, thing, 0⟩ hrecv ⟨rfl, rfl⟩
        rw [ownAmount, hf]
        rfl
      rw [hrecv0, zero_add]
      rw [setOwn_append_none 0 (min amount (ownAmount w.rows self thing)) hrecv]
      by_cases hz : ownAmount w.rows self thing
          - min amount (ownAmount w.rows self thing) = 0
      · rw [if_pos hz]
        intro r hr
        rcases mem_delOwn hr with ⟨hmem, hkey⟩
        rcases List.mem_append.mp hmem with h₁ | h₂
        · rcases hmem2 r h₁ with hp | hs
          · exact ⟨(ne_of_lt hp).symm, hp⟩
          · exact absurd ⟨hs.1, hs.2.1⟩ hkey
        · have heq : r = ⟨toCorp, thing, min amount (ownAmount w.rows self thing)⟩ :=
            List.mem_singleton.mp h₂
          rw [heq]
          exact ⟨(ne_of_lt ht).symm, ht⟩
      · rw [if_neg hz]
        intro r hr
        rcases List.mem_append.mp hr with h₁ | h₂
        · rcases hmem2 r h₁ with hp | hs
          · exact ⟨(ne_of_lt hp).symm, hp⟩
          · have hpos' : 0 < r.amount := by
              rw [hs.2.2]
              rcases lt_or_eq_of_le hbt with h | h
              · exact h
              · exact absurd h.symm hz
            exact ⟨(ne_of_lt hpos').symm, hpos'⟩
        · have heq : r = ⟨toCorp, thing, min amount (ownAmount w.rows self thing)⟩ :=
            List.mem_singleton.mp h₂
          rw [heq]
          exact ⟨(ne_of_lt ht).symm, ht⟩
  · rw [if_neg ht]
    intro r hr
    have hp := hpos r hr
    exact ⟨(ne_of_lt hp).symm, hp⟩

/-- Witness for the amended C4: the transfer of 30 from corporation 1
(stored balance 100) to corporation 2 leaves only positive rows. -/
theorem claim_C4_witness :
    ((∀ r ∈ w3w.rows, 0 < r.amount) ∧ 0 < balanceOf w3w 1 0) ∧
    (∀ r ∈ (transfer_ownership 1 0 30 2 w3w).2.2.rows,
      r.amount ≠ 0 ∧ 0 < r.amount) := by
  have hp : ∀ r ∈ w3w.rows, 0 < r.amount := by
    intro r hr
    simp [w3w] at hr
    rw [hr]
    norm_num
  have hb : 0 < balanceOf w3w 1 0 := by
    norm_num [balanceOf, ownAmount, findOwn, w3w, List.find?]
  exact ⟨⟨hp, hb⟩, claim_C4_amended_sparse 1 2 0 30 w3w hp hb⟩
